import Mathlib

/-!
# Verification of the Zamex telematics Teltonika listener

A shallow embedding, in Lean 4, of the listener's three components:

* `src/listener/parser.js` — the Teltonika Codec 8 / Codec 8 Extended
  binary decoder (`parseIMEI`, `parseAVLData`, `parseAVLRecord`,
  `parseGPSElement`, `parseIOElement`, `parseIOElements`, `createACK`);
* `src/listener/index.js` — the per-connection `socket.on('data')`
  handler, modelled as a pure transition function on session state;
* `src/listener/router.js` — `DataRouter.validateDevice` with its
  5-minute credential cache, modelled with an explicit simulated clock.

Byte buffers are `List Nat` with each element a byte value `< 256`
(theorems that need byte-ness hypothesise it).  JavaScript strings built
from `'ascii'` decoding are modelled as their list of code units
(`List Nat`): Node's `'ascii'` decoding keeps only the low 7 bits of
each byte.  A JavaScript exception caught by a `try`/`catch` is
modelled by `Option`: a read past the end of the buffer yields `none`
exactly where Node's `readUIntBE`-family throws `ERR_OUT_OF_RANGE`.
-/

namespace Zamex

/-- Big-endian read of `n` bytes at `off`, as Node's `readUIntBE` family:
out of range (not `off + n ≤ buffer length`) throws, modelled as `none`. -/
def readBytesBE (b : List Nat) (off n : Nat) : Option Nat :=
  if off + n ≤ b.length then
    some (((b.drop off).take n).foldl (fun a x => a * 256 + x) 0)
  else none

/-- Signed reinterpretation of a `w`-bit unsigned value (two's complement),
as `readInt32BE` / `readInt16BE` produce. -/
def toSigned (v w : Nat) : Int :=
  if v < 2 ^ (w - 1) then (v : Int) else (v : Int) - 2 ^ w

/-- Node `buffer.readInt32BE(off)`. -/
def readInt32BE (b : List Nat) (off : Nat) : Option Int :=
  (readBytesBE b off 4).map (toSigned · 32)

/-- Node `buffer.readInt16BE(off)`. -/
def readInt16BE (b : List Nat) (off : Nat) : Option Int :=
  (readBytesBE b off 2).map (toSigned · 16)

/-- Floor of the base-2 logarithm, computed with enough fuel for any
64-bit value (structural recursion on the fuel, so it reduces by `rfl`). -/
def floorLog2Aux : Nat → Nat → Nat
  | 0, _ => 0
  | fuel + 1, n => if 2 ≤ n then floorLog2Aux fuel (n / 2) + 1 else 0

/-- As `Nat.log2`, restricted to 64-bit values. -/
def floorLog2 (n : Nat) : Nat := floorLog2Aux 64 n

/-- Round `n / d` to the nearest integer, ties to even. -/
def roundHalfEvenDiv (n d : Nat) : Nat :=
  let q := n / d
  let r := n % d
  if 2 * r < d then q
  else if d < 2 * r then q + 1
  else if q % 2 = 0 then q else q + 1

/-- JavaScript's `Number(bigUint64)` for a value below `2 ^ 64`: the nearest
IEEE-754 binary64 value (round to nearest, ties to even).  Integers below
`2 ^ 53` are exact; above, the value is rounded to a multiple of
`2 ^ (exponent - 52)`. -/
def jsNumberOfU64 (n : Nat) : Nat :=
  if n < 2 ^ 53 then n
  else
    let e := floorLog2 n - 52
    roundHalfEvenDiv n (2 ^ e) * 2 ^ e

/-- One ASCII code unit is a decimal digit, as the regex class `\d`. -/
def isDigitCode (c : Nat) : Bool := decide (48 ≤ c) && decide (c ≤ 57)

/-- Embeds `TeltonikaParser.parseIMEI` (src/listener/parser.js:12-36).
Reads a 2-byte big-endian length (must be 15), `'ascii'`-decodes
`buffer.slice(2, 17)` (each byte's low 7 bits; `slice` never throws, it
just yields fewer bytes on a short buffer) and accepts exactly when the
regex `/^\d{15}$/` matches.  The result is the decoded string's code
units. -/
def parseIMEI (b : List Nat) : Option (List Nat) :=
  match readBytesBE b 0 2 with
  | none => none
  | some imeiLength =>
    if imeiLength = 15 then
      let imei := ((b.drop 2).take 15).map (· % 128)
      if imei.length = 15 ∧ imei.all isDigitCode then some imei else none
    else none

/-- The width `codecID === 0x8E ? 2 : 1`: the width of ids and counts in the IO
section. -/
def headerWidth (codecID : Nat) : Nat := if codecID = 142 then 2 else 1

/-- One IO-section header field: `readUInt16BE` for Codec 8 Extended,
`readUInt8` for Codec 8, returning the value and the advanced offset. -/
def readHeaderField (b : List Nat) (off codecID : Nat) : Option (Nat × Nat) :=
  match readBytesBE b off (headerWidth codecID) with
  | none => none
  | some v => some (v, off + headerWidth codecID)

/-- The loop body of `parseIOElements` (src/listener/parser.js:219-243),
recursing on the remaining element count: each entry is an id
(header-width) and a value (`byteLength` bytes); an 8-byte value goes
through `Number(...)` (`jsNumberOfU64`).  The decoded pairs are kept in
read order; the source stores them in an object keyed `io_<id>`, a later
pair overwriting an earlier one with the same id. -/
def parseIOList (b : List Nat) (byteLength codecID : Nat) :
    Nat → Nat → Option (List (Nat × Nat) × Nat)
  | off, 0 => some ([], off)
  | off, n + 1 =>
    match readHeaderField b off codecID with
    | none => none
    | some (ioID, o1) =>
      match readBytesBE b o1 byteLength with
      | none => none
      | some v =>
        let value := if byteLength = 8 then jsNumberOfU64 v else v
        match parseIOList b byteLength codecID (o1 + byteLength) n with
        | none => none
        | some (rest, oEnd) => some ((ioID, value) :: rest, oEnd)

/-- Embeds `TeltonikaParser.parseIOElements` (src/listener/parser.js:212-246):
a header-width count followed by that many `(id, value)` entries. -/
def parseIOElements (b : List Nat) (off byteLength codecID : Nat) :
    Option (List (Nat × Nat) × Nat) :=
  match readHeaderField b off codecID with
  | none => none
  | some (count, o1) => parseIOList b byteLength codecID o1 count

/-- Embeds `TeltonikaParser.parseIOElement` (src/listener/parser.js:170-202):
event id, total element count (read and discarded), then the 1-, 2-, 4-
and 8-byte sub-groups; returns the concatenated `(id, value)` pairs, the
event id and the final offset. -/
def parseIOElement (b : List Nat) (off codecID : Nat) :
    Option (List (Nat × Nat) × Nat × Nat) :=
  match readHeaderField b off codecID with
  | none => none
  | some (eventID, o1) =>
    match readHeaderField b o1 codecID with
    | none => none
    | some (_totalElements, o2) =>
      match parseIOElements b o2 1 codecID with
      | none => none
      | some (ioOne, o3) =>
        match parseIOElements b o3 2 codecID with
        | none => none
        | some (ioTwo, o4) =>
          match parseIOElements b o4 4 codecID with
          | none => none
          | some (ioFour, o5) =>
            match parseIOElements b o5 8 codecID with
            | none => none
            | some (ioEight, o6) =>
              some (ioOne ++ ioTwo ++ ioFour ++ ioEight, eventID, o6)

/-- The GPS element of an AVL record.  `longitude`/`latitude` hold the raw
signed 32-bit values; the source divides them by 10,000,000 for degrees
(an injective rescaling, so equality of records is unaffected). -/
structure GPSData where
  longitude : Int
  latitude : Int
  altitude : Int
  angle : Nat
  satellites : Nat
  speed : Nat
deriving DecidableEq, Repr

/-- Embeds `TeltonikaParser.parseGPSElement` (src/listener/parser.js:133-161):
longitude (4B signed), latitude (4B signed), altitude (2B signed),
angle (2B), satellites (1B), speed (2B), 15 bytes in that order. -/
def parseGPSElement (b : List Nat) (off : Nat) : Option (GPSData × Nat) :=
  match readInt32BE b off, readInt32BE b (off + 4), readInt16BE b (off + 8),
      readBytesBE b (off + 10) 2, readBytesBE b (off + 12) 1,
      readBytesBE b (off + 13) 2 with
  | some lon, some lat, some alt, some ang, some sats, some spd =>
    some (⟨lon, lat, alt, ang, sats, spd⟩, off + 15)
  | _, _, _, _, _, _ => none

/-- One decoded AVL record, fields as `parseAVLRecord` assembles them.
`recorded_at` holds the millisecond timestamp after JavaScript's
`Number(...)` conversion; the source formats it as an ISO-8601 string,
injective on the valid range. -/
structure AVLRecord where
  recorded_at : Nat
  priority : Nat
  longitude : Int
  latitude : Int
  altitude : Int
  angle : Nat
  satellites : Nat
  speed : Nat
  io_elements : List (Nat × Nat)
  event_id : Nat
deriving DecidableEq, Repr

/-- The largest millisecond value `new Date(ms).toISOString()` accepts;
above it the `Date` is invalid and `toISOString` throws (caught by
`parseAVLRecord`'s `try`/`catch`). -/
def maxDateMillis : Nat := 8640000000000000

/-- Embeds `TeltonikaParser.parseAVLRecord` (src/listener/parser.js:96-125):
8-byte timestamp (through `Number(...)` and `Date`, so a timestamp whose
converted value exceeds `maxDateMillis` makes the record fail), 1-byte
priority, GPS element, IO element; any read past the buffer end makes
the whole record fail (`try`/`catch` returns `null`). -/
def parseAVLRecord (b : List Nat) (off codecID : Nat) :
    Option (AVLRecord × Nat) :=
  match readBytesBE b off 8 with
  | none => none
  | some timestamp =>
    let jts := jsNumberOfU64 timestamp
    if jts ≤ maxDateMillis then
      match readBytesBE b (off + 8) 1 with
      | none => none
      | some priority =>
        match parseGPSElement b (off + 9) with
        | none => none
        | some (gps, o2) =>
          match parseIOElement b o2 codecID with
          | none => none
          | some (ioEls, eventID, o3) =>
            some ({ recorded_at := jts, priority := priority,
                    longitude := gps.longitude, latitude := gps.latitude,
                    altitude := gps.altitude, angle := gps.angle,
                    satellites := gps.satellites, speed := gps.speed,
                    io_elements := ioEls, event_id := eventID }, o3)
    else none

/-- The decoded packet (`parseAVLData`'s return object). -/
structure AVLPacket where
  codecID : Nat
  numberOfRecords : Nat
  records : List AVLRecord
deriving DecidableEq, Repr

/-- The record loop of `parseAVLData` (src/listener/parser.js:70-76),
recursing on the loop counter: a successful record is pushed and the
offset advances; a failed record is skipped and the offset stays where
it was, the loop index advancing regardless. -/
def parseLoop (b : List Nat) (codecID : Nat) :
    Nat → Nat → List AVLRecord → List AVLRecord × Nat
  | off, 0, acc => (acc, off)
  | off, n + 1, acc =>
    match parseAVLRecord b off codecID with
    | some (r, o2) => parseLoop b codecID o2 n (acc ++ [r])
    | none => parseLoop b codecID off n acc

/-- Embeds `TeltonikaParser.parseAVLData` (src/listener/parser.js:43-87):
4-byte preamble skipped unread, 4-byte data-field length (read, only to
advance), 1-byte codec id (must be `0x08` or `0x8E`), 1-byte record
count, then the record loop.  Header reads past the buffer end throw,
caught as `null`. -/
def parseAVLData (b : List Nat) : Option AVLPacket :=
  match readBytesBE b 4 4 with
  | none => none
  | some _dataLength =>
    match readBytesBE b 8 1 with
    | none => none
    | some codecID =>
      if codecID ≠ 8 ∧ codecID ≠ 142 then none
      else
        match readBytesBE b 9 1 with
        | none => none
        | some numberOfData =>
          some { codecID := codecID, numberOfRecords := numberOfData,
                 records := (parseLoop b codecID 10 numberOfData []).1 }

/-- Big-endian bytes of `n`, `w` bytes wide (the encoding direction, for
round-trip statements; `n` above `256 ^ w` is truncated). -/
def beBytes : Nat → Nat → List Nat
  | 0, _ => []
  | w + 1, n => beBytes w (n / 256) ++ [n % 256]

/-- Embeds `TeltonikaParser.createACK` (src/listener/parser.js:253-257): 4 bytes,
big-endian record count. -/
def createACK (n : Nat) : List Nat := beBytes 4 n

/-- The identity frame encoding: 2-byte big-endian length 15, then the 15
ASCII digit bytes (spec §6, `[2B length=15][15B ASCII digits]`). -/
def encodeIdentity (digits : List Nat) : List Nat := beBytes 2 15 ++ digits

/-! ## IO-section encoders (for round-trip and codec-equivalence statements) -/

/-- Abstract IO section content: event id, the informational total count,
and the four `(id, value)` groups for value widths 1, 2, 4, 8. -/
structure IOSec where
  eventId : Nat
  total : Nat
  g1 : List (Nat × Nat)
  g2 : List (Nat × Nat)
  g4 : List (Nat × Nat)
  g8 : List (Nat × Nat)
deriving DecidableEq, Repr

/-- One encoded IO entry: header-width id, value-width value. -/
def encItem (hw vw : Nat) (p : Nat × Nat) : List Nat :=
  beBytes hw p.1 ++ beBytes vw p.2

/-- The encoded entries of one group, concatenated. -/
def encItems (hw vw : Nat) (l : List (Nat × Nat)) : List Nat :=
  (l.map (encItem hw vw)).flatten

/-- One encoded sub-group: header-width count, then the entries. -/
def encGroup (hw vw : Nat) (l : List (Nat × Nat)) : List Nat :=
  beBytes hw l.length ++ encItems hw vw l

/-- The whole encoded IO section in header width `hw` (1 for Codec 8,
2 for Codec 8 Extended). -/
def encodeIOSec (hw : Nat) (s : IOSec) : List Nat :=
  beBytes hw s.eventId ++ beBytes hw s.total ++ encGroup hw 1 s.g1 ++
    encGroup hw 2 s.g2 ++ encGroup hw 4 s.g4 ++ encGroup hw 8 s.g8

/-- The value the parser stores for a wire value of width `vw` (8-byte
values go through JavaScript `Number`). -/
def ioStored (byteLength v : Nat) : Nat :=
  if byteLength = 8 then jsNumberOfU64 v else v

/-- The `(id, stored value)` pairs the parser produces for one group. -/
def decGroup (vw : Nat) (l : List (Nat × Nat)) : List (Nat × Nat) :=
  l.map (fun p => (p.1, ioStored vw p.2))

/-- The `(id, stored value)` pairs for the whole section, in parse order. -/
def decodeIOSecVals (s : IOSec) : List (Nat × Nat) :=
  decGroup 1 s.g1 ++ decGroup 2 s.g2 ++ decGroup 4 s.g4 ++ decGroup 8 s.g8

/-- Encodability bounds of one group at header width `hw`, value width `vw`. -/
def groupOK (hw vw : Nat) (l : List (Nat × Nat)) : Prop :=
  l.length < 256 ^ hw ∧ ∀ p ∈ l, p.1 < 256 ^ hw ∧ p.2 < 256 ^ vw

/-- Encodability bounds of a whole section at header width `hw`. -/
def secOK (hw : Nat) (s : IOSec) : Prop :=
  s.eventId < 256 ^ hw ∧ s.total < 256 ^ hw ∧ groupOK hw 1 s.g1 ∧
    groupOK hw 2 s.g2 ∧ groupOK hw 4 s.g4 ∧ groupOK hw 8 s.g8

/-- The 15 fixed GPS bytes: longitude, latitude, altitude, angle,
satellites, speed (spec §4.1, GPS element). -/
def encodeGPS (lon lat alt ang sats spd : Nat) : List Nat :=
  beBytes 4 lon ++ beBytes 4 lat ++ beBytes 2 alt ++ beBytes 2 ang ++
    beBytes 1 sats ++ beBytes 2 spd

/-- One encoded AVL record: 8-byte timestamp, 1-byte priority, the GPS
element, the IO section in header width `hw`. -/
def encodeAVLRecord (hw ts prio lon lat alt ang sats spd : Nat) (sec : IOSec) : List Nat :=
  beBytes 8 ts ++ beBytes 1 prio ++ encodeGPS lon lat alt ang sats spd ++
    encodeIOSec hw sec

/-! ## Session state machine (src/listener/index.js) -/

/-- The client configuration `DataRouter.validateDevice` returns
(src/listener/router.js:49-55). -/
structure ClientConfig where
  imei : List Nat
  unidad : String
  cliente : String
  supabaseUrl : String
  supabaseKey : String
deriving DecidableEq, Repr

/-- Per-connection mutable state of the `net.createServer` callback
(src/listener/index.js:34-36): `deviceIMEI`, `clientConfig`,
`dataBuffer`.  The protocol phase is `AwaitingIdentity` exactly when
`deviceIMEI` is `none` (the code tests `if (!deviceIMEI)`). -/
structure SessionState where
  deviceIMEI : Option (List Nat)
  clientConfig : Option ClientConfig
  dataBuffer : List Nat
deriving DecidableEq, Repr

/-- What one `socket.on('data')` invocation does: the new session state,
the byte buffers written to the socket (in order, one list per
`socket.write` call), and whether `socket.end()` was called. -/
structure StepOutput where
  state : SessionState
  writes : List (List Nat)
  ended : Bool
deriving DecidableEq, Repr

/-- The `socket.on('data')` handler (src/listener/index.js:39-119) as a
transition function.  `resolver` stands for the awaited
`router.validateDevice` call, `sink` for the awaited `router.routeData`
call; both are collaborators outside the session.  In the branch where
a packet decodes with records but `clientConfig` is `none`,
`routeData(null, …)` would throw and the handler's outer `catch` acks 0
and clears the buffer, which is what the model returns there. -/
def onData (resolver : List Nat → Option ClientConfig)
    (sink : ClientConfig → List AVLRecord → Bool)
    (s : SessionState) (chunk : List Nat) : StepOutput :=
  let buf := s.dataBuffer ++ chunk
  match s.deviceIMEI with
  | none =>
    if buf.length < 17 then
      { state := { s with dataBuffer := buf }, writes := [], ended := false }
    else
      match parseIMEI buf with
      | none =>
        { state := { s with dataBuffer := buf }, writes := [[0]], ended := true }
      | some imei =>
        match resolver imei with
        | none =>
          { state := { s with deviceIMEI := some imei, dataBuffer := buf },
            writes := [[0]], ended := true }
        | some cfg =>
          { state := { deviceIMEI := some imei, clientConfig := some cfg,
                       dataBuffer := [] },
            writes := [[1]], ended := false }
  | some _ =>
    if buf.length < 12 then
      { state := { s with dataBuffer := buf }, writes := [], ended := false }
    else
      match parseAVLData buf with
      | none =>
        { state := { s with dataBuffer := [] }, writes := [createACK 0],
          ended := false }
      | some avl =>
        if avl.records.length = 0 then
          { state := { s with dataBuffer := [] }, writes := [createACK 0],
            ended := false }
        else
          match s.clientConfig with
          | none =>
            { state := { s with dataBuffer := [] }, writes := [createACK 0],
              ended := false }
          | some cfg =>
            { state := { s with dataBuffer := [] },
              writes := [createACK (if sink cfg avl.records then avl.numberOfRecords else 0)],
              ended := false }

/-! ## Tenant resolver and cache (src/listener/router.js) -/

/-- One row of `vista_maestra_dispositivos` as `validateDevice` reads it;
the two `destino` columns may be absent (`none`). -/
structure RegistryRow where
  imei : List Nat
  unidad : String
  cliente : String
  supabase_url_destino : Option String
  supabase_service_key_destino : Option String
deriving DecidableEq, Repr

/-- The `DataRouter` mutable state: the `clientCache` map (at most one entry
per key: `Map.set` replaces) and the pending `setTimeout` deletions as
`(fire time, key)` pairs. -/
structure RouterState where
  cache : List (List Nat × ClientConfig)
  timers : List (Nat × List Nat)
deriving DecidableEq, Repr

/-- Embeds `clientCache.get`: the entry for `imei`, if present. -/
def cacheLookup (c : List (List Nat × ClientConfig)) (imei : List Nat) :
    Option ClientConfig :=
  match c.find? (fun e => decide (e.1 = imei)) with
  | some e => some e.2
  | none => none

/-- Embeds `clientCache.set`: replace any entry under the same key. -/
def cacheSet (c : List (List Nat × ClientConfig)) (imei : List Nat)
    (cfg : ClientConfig) : List (List Nat × ClientConfig) :=
  (imei, cfg) :: c.filter (fun e => decide (¬ e.1 = imei))

/-- Advance the simulated clock to `now`: every `setTimeout` whose fire
time has been reached runs its `clientCache.delete(imei)` callback and is
discharged. -/
def fireTimers (st : RouterState) (now : Nat) : RouterState :=
  { cache := (st.timers.filter (fun tk => decide (tk.1 ≤ now))).foldl
      (fun c tk => c.filter (fun e => decide (¬ e.1 = tk.2))) st.cache,
    timers := st.timers.filter (fun tk => decide (¬ tk.1 ≤ now)) }

/-- Embeds `DataRouter.validateDevice` (src/listener/router.js:18-67) with a
simulated clock `now`.  `registry` stands for the awaited master-database
query (`none` covers both a query error and an absent row).  Returns the
result, the router state after the call, and whether the registry was
queried (`false` exactly on a cache hit).  A found row missing either
`destino` column (or holding an empty string, falsy in JavaScript)
resolves to `none` without caching.  On success the row is cached and a
deletion is scheduled `5 * 60 * 1000` ms later. -/
def validateDevice (registry : List Nat → Option RegistryRow)
    (st : RouterState) (now : Nat) (imei : List Nat) :
    Option ClientConfig × RouterState × Bool :=
  let st1 := fireTimers st now
  match cacheLookup st1.cache imei with
  | some cfg => (some cfg, st1, false)
  | none =>
    match registry imei with
    | none => (none, st1, true)
    | some row =>
      match row.supabase_url_destino, row.supabase_service_key_destino with
      | some url, some key =>
        if url = "" ∨ key = "" then (none, st1, true)
        else
          (some { imei := row.imei, unidad := row.unidad, cliente := row.cliente,
                  supabaseUrl := url, supabaseKey := key },
            { cache := cacheSet st1.cache imei
                { imei := row.imei, unidad := row.unidad, cliente := row.cliente,
                  supabaseUrl := url, supabaseKey := key },
              timers := st1.timers ++ [(now + 5 * 60 * 1000, imei)] }, true)
      | _, _ => (none, st1, true)

/-- The `clientConfig` object `validateDevice` builds from a registry row
(src/listener/router.js:49-55). -/
def routeOf (row : RegistryRow) (url key : String) : ClientConfig :=
  { imei := row.imei, unidad := row.unidad, cliente := row.cliente,
    supabaseUrl := url, supabaseKey := key }

/-- The router state right after a successful first resolution at `t0`:
one cache entry and one pending deletion at `t0 + 5 * 60 * 1000`. -/
def cachedState (imei : List Nat) (cfg : ClientConfig) (t0 : Nat) : RouterState :=
  { cache := [(imei, cfg)], timers := [(t0 + 5 * 60 * 1000, imei)] }

/-! ## Concrete instances used by the witnesses -/

/-- A concrete valid identity, the code units of "123456789012345". -/
def imeiW : List Nat := [49, 50, 51, 52, 53, 54, 55, 56, 57, 48, 49, 50, 51, 52, 53]

/-- A concrete tenant route. -/
def cfgW : ClientConfig :=
  { imei := imeiW, unidad := "unit-7", cliente := "acme",
    supabaseUrl := "https://tenant.example", supabaseKey := "service-key" }

/-- A resolver that knows exactly `imeiW`. -/
def resolverW : List Nat → Option ClientConfig :=
  fun i => if i = imeiW then some cfgW else none

/-- A sink that always succeeds. -/
def sinkW : ClientConfig → List AVLRecord → Bool := fun _ _ => true

/-- A fresh session. -/
def sessionW : SessionState :=
  { deviceIMEI := none, clientConfig := none, dataBuffer := [] }

/-- A fully configured registry row for `imeiW`. -/
def rowW : RegistryRow :=
  { imei := imeiW, unidad := "unit-7", cliente := "acme",
    supabase_url_destino := some "https://tenant.example",
    supabase_service_key_destino := some "service-key" }

/-- A registry that knows exactly `imeiW`. -/
def registryW : List Nat → Option RegistryRow :=
  fun i => if i = imeiW then some rowW else none

/-- A concrete IO section: event id 5, total 4, one element per width,
the 8-byte one carrying `2 ^ 60`. -/
def secW : IOSec :=
  { eventId := 5, total := 4, g1 := [(1, 2)], g2 := [(9, 0)],
    g4 := [(66, 13800)], g8 := [(200, 1152921504606846976)] }

/-! ## Byte-level lemmas -/

theorem beBytes_length (w n : Nat) : (beBytes w n).length = w := by
  induction w generalizing n with
  | zero => rfl
  | succ w ih => simp [beBytes, ih]

theorem foldBE_beBytes (w n : Nat) :
    (beBytes w n).foldl (fun a x => a * 256 + x) 0 = n % 256 ^ w := by
  induction w generalizing n with
  | zero => simp [beBytes, Nat.mod_one]
  | succ w ih =>
    rw [beBytes, List.foldl_append, ih]
    show (n / 256 % 256 ^ w) * 256 + n % 256 = n % 256 ^ (w + 1)
    rw [pow_succ, mul_comm (256 ^ w) 256, Nat.mod_mul]
    ring

theorem readBytesBE_enc (pre suf : List Nat) (w n : Nat) (hn : n < 256 ^ w) :
    readBytesBE (pre ++ (beBytes w n ++ suf)) pre.length w = some n := by
  have hlen : pre.length + w ≤ (pre ++ (beBytes w n ++ suf)).length := by
    simp [beBytes_length]
  rw [readBytesBE, if_pos hlen, List.drop_left, List.take_left' (beBytes_length w n),
    foldBE_beBytes, Nat.mod_eq_of_lt hn]

theorem readHeaderField_enc (pre suf : List Nat) (codecID n : Nat)
    (hn : n < 256 ^ headerWidth codecID) :
    readHeaderField (pre ++ (beBytes (headerWidth codecID) n ++ suf)) pre.length codecID
      = some (n, pre.length + headerWidth codecID) := by
  rw [readHeaderField, readBytesBE_enc pre suf _ n hn]

/-! ## parseIMEI lemmas -/

theorem map_mod128_of_digits (l : List Nat) (h : l.all isDigitCode) :
    l.map (· % 128) = l := by
  induction l with
  | nil => rfl
  | cons x xs ih =>
    simp only [List.all_cons, Bool.and_eq_true] at h
    have hx : x % 128 = x := by
      have : x ≤ 57 := by
        have := h.1
        simp [isDigitCode] at this
        omega
      exact Nat.mod_eq_of_lt (by omega)
    simp [hx, ih h.2]

theorem parseIMEI_roundTrip (digits : List Nat) (hlen : digits.length = 15)
    (hdig : digits.all isDigitCode) :
    parseIMEI (encodeIdentity digits) = some digits := by
  have henc : encodeIdentity digits = 0 :: 15 :: digits := rfl
  rw [henc, parseIMEI]
  have hr : readBytesBE (0 :: 15 :: digits) 0 2 = some 15 := by
    have := readBytesBE_enc [] digits 2 15 (by norm_num)
    simpa [encodeIdentity] using this
  rw [hr]
  simp only [if_pos rfl]
  have hd : (0 :: 15 :: digits).drop 2 = digits := rfl
  rw [hd, List.take_of_length_le (by omega), map_mod128_of_digits digits hdig]
  simp [hlen, hdig]

theorem parseIMEI_spec (b imei : List Nat) (h : parseIMEI b = some imei) :
    imei.length = 15 ∧ imei.all isDigitCode := by
  simp only [parseIMEI] at h
  split at h
  · exact absurd h (by simp)
  · split at h
    · split at h
      next hok =>
        cases h
        exact hok
      · exact absurd h (by simp)
    · exact absurd h (by simp)

theorem parseIMEI_length_ge (b imei : List Nat) (h : parseIMEI b = some imei) :
    17 ≤ b.length := by
  simp only [parseIMEI] at h
  split at h
  · exact absurd h (by simp)
  · split at h
    · split at h
      next hok =>
        have h1 : (((b.drop 2).take 15).map (· % 128)).length = 15 := hok.1
        simp only [List.length_map, List.length_take, List.length_drop] at h1
        omega
      · exact absurd h (by simp)
    · exact absurd h (by simp)

theorem parseIMEI_badLength (b : List Nat) (len : Nat)
    (hr : readBytesBE b 0 2 = some len) (hne : len ≠ 15) :
    parseIMEI b = none := by
  simp only [parseIMEI, hr, if_neg hne]

theorem parseIMEI_badDigit (b : List Nat) (x : Nat)
    (hx : x ∈ (b.drop 2).take 15) (hnd : isDigitCode (x % 128) = false) :
    parseIMEI b = none := by
  have hall : (((b.drop 2).take 15).map (· % 128)).all isDigitCode = false := by
    rw [List.all_eq_false]
    exact ⟨x % 128, List.mem_map_of_mem _ hx, by simp [hnd]⟩
  simp only [parseIMEI]
  split
  · rfl
  · split
    · split
      next hok =>
        rw [hall] at hok
        exact absurd hok.2 (by simp)
      · rfl
    · rfl

/-! ## parseAVLData loop lemmas -/

theorem parseLoop_skip (b : List Nat) (codecID off n : Nat) (acc : List AVLRecord)
    (h : parseAVLRecord b off codecID = none) :
    parseLoop b codecID off (n + 1) acc = parseLoop b codecID off n acc := by
  simp only [parseLoop, h]

theorem parseLoop_length_le (b : List Nat) (codecID : Nat) :
    ∀ (n off : Nat) (acc : List AVLRecord),
      (parseLoop b codecID off n acc).1.length ≤ acc.length + n := by
  intro n
  induction n with
  | zero => intro off acc; simp [parseLoop]
  | succ n ih =>
    intro off acc
    rw [parseLoop]
    cases h : parseAVLRecord b off codecID with
    | none =>
      dsimp only
      have := ih off acc
      omega
    | some p =>
      obtain ⟨r, o2⟩ := p
      dsimp only
      have := ih o2 (acc ++ [r])
      simp only [List.length_append, List.length_cons, List.length_nil] at this
      omega

theorem parseAVLData_inv (b : List Nat) (p : AVLPacket)
    (h : parseAVLData b = some p) :
    readBytesBE b 9 1 = some p.numberOfRecords ∧
      p.records = (parseLoop b p.codecID 10 p.numberOfRecords []).1 ∧
      (p.codecID = 8 ∨ p.codecID = 142) := by
  simp only [parseAVLData] at h
  cases hd : readBytesBE b 4 4 with
  | none => rw [hd] at h; exact absurd h (by simp)
  | some dl =>
    rw [hd] at h
    dsimp only at h
    cases hc : readBytesBE b 8 1 with
    | none => rw [hc] at h; exact absurd h (by simp)
    | some codec =>
      rw [hc] at h
      dsimp only at h
      by_cases hcodec : codec ≠ 8 ∧ codec ≠ 142
      · rw [if_pos hcodec] at h; exact absurd h (by simp)
      · rw [if_neg hcodec] at h
        cases hn : readBytesBE b 9 1 with
        | none => rw [hn] at h; exact absurd h (by simp)
        | some n =>
          rw [hn] at h
          simp only [Option.some.injEq] at h
          subst h
          refine ⟨rfl, rfl, ?_⟩
          tauto

theorem parseAVLData_records_le (b : List Nat) (p : AVLPacket)
    (h : parseAVLData b = some p) :
    p.records.length ≤ p.numberOfRecords := by
  obtain ⟨-, hrec, -⟩ := parseAVLData_inv b p h
  rw [hrec]
  simpa using parseLoop_length_le b p.codecID p.numberOfRecords 10 []

theorem parseAVLData_badCodec (b : List Nat) (c : Nat) (hlen : 9 ≤ b.length)
    (hc : readBytesBE b 8 1 = some c) (h8 : c ≠ 8) (h8E : c ≠ 142) :
    parseAVLData b = none := by
  have hd : readBytesBE b 4 4 =
      some (((b.drop 4).take 4).foldl (fun a x => a * 256 + x) 0) := by
    rw [readBytesBE, if_pos (by omega)]
  simp only [parseAVLData, hd, hc, if_pos (And.intro h8 h8E)]

/-! ## Byte-bound lemmas -/

theorem foldBE_lt (l : List Nat) (hl : ∀ x ∈ l, x < 256) :
    ∀ a, l.foldl (fun acc x => acc * 256 + x) a < (a + 1) * 256 ^ l.length := by
  induction l with
  | nil => intro a; simp
  | cons x xs ih =>
    intro a
    have hx : x < 256 := hl x (by simp)
    have hr := ih (fun y hy => hl y (by simp [hy])) (a * 256 + x)
    have hstep : (a * 256 + x + 1) * 256 ^ xs.length ≤ (a + 1) * 256 ^ (xs.length + 1) := by
      have h1 : a * 256 + x + 1 ≤ (a + 1) * 256 := by nlinarith
      calc (a * 256 + x + 1) * 256 ^ xs.length ≤ (a + 1) * 256 * 256 ^ xs.length :=
            Nat.mul_le_mul_right _ h1
        _ = (a + 1) * 256 ^ (xs.length + 1) := by ring
    simp only [List.foldl_cons, List.length_cons]
    exact lt_of_lt_of_le hr hstep

theorem readBytesBE_lt (b : List Nat) (off w v : Nat)
    (hb : ∀ x ∈ b, x < 256) (h : readBytesBE b off w = some v) :
    v < 256 ^ w := by
  simp only [readBytesBE] at h
  split at h
  · simp only [Option.some.injEq] at h
    subst h
    have hmem : ∀ x ∈ (b.drop off).take w, x < 256 := fun x hx =>
      hb x (List.mem_of_mem_drop (List.mem_of_mem_take hx))
    have hlen : ((b.drop off).take w).length ≤ w := by
      simp [List.length_take]
    have := foldBE_lt _ hmem 0
    simp only [Nat.zero_add, Nat.one_mul] at this
    exact lt_of_lt_of_le this (Nat.pow_le_pow_right (by norm_num) hlen)
  · exact absurd h (by simp)

theorem jsNumberOfU64_of_lt (n : Nat) (h : n < 2 ^ 53) : jsNumberOfU64 n = n := by
  simp only [jsNumberOfU64]
  rw [if_pos h]

theorem parseIOList_enc (codecID vw : Nat) (l : List (Nat × Nat)) :
    ∀ (pre suf : List Nat),
      (∀ p ∈ l, p.1 < 256 ^ headerWidth codecID ∧ p.2 < 256 ^ vw) →
      parseIOList (pre ++ (encItems (headerWidth codecID) vw l ++ suf)) vw codecID
          pre.length l.length
        = some (decGroup vw l,
            pre.length + (encItems (headerWidth codecID) vw l).length) := by
  induction l with
  | nil =>
    intro pre suf hb
    simp [parseIOList, encItems, decGroup]
  | cons p l ih =>
    intro pre suf hb
    obtain ⟨hid, hval⟩ := hb p (by simp)
    set hw := headerWidth codecID with hhw
    set B := pre ++ (encItems hw vw (p :: l) ++ suf) with hB
    have hB1 : B = pre ++ (beBytes hw p.1 ++
        (beBytes vw p.2 ++ (encItems hw vw l ++ suf))) := by
      simp [hB, encItems, encItem, List.append_assoc]
    have h1 : readHeaderField B pre.length codecID = some (p.1, pre.length + hw) := by
      rw [hB1]
      exact readHeaderField_enc pre _ codecID p.1 hid
    have hlen2 : (pre ++ beBytes hw p.1).length = pre.length + hw := by
      simp [beBytes_length]
    have h2 : readBytesBE B (pre.length + hw) vw = some p.2 := by
      have hB2 : B = (pre ++ beBytes hw p.1) ++
          (beBytes vw p.2 ++ (encItems hw vw l ++ suf)) := by
        simp [hB1, List.append_assoc]
      rw [hB2, ← hlen2]
      exact readBytesBE_enc _ _ vw p.2 hval
    have hlen3 : (pre ++ beBytes hw p.1 ++ beBytes vw p.2).length
        = pre.length + hw + vw := by
      simp [beBytes_length]
      omega
    have h3 : parseIOList B vw codecID (pre.length + hw + vw) l.length
        = some (decGroup vw l, pre.length + hw + vw + (encItems hw vw l).length) := by
      have hB3 : B = (pre ++ beBytes hw p.1 ++ beBytes vw p.2) ++
          (encItems hw vw l ++ suf) := by
        simp [hB1, List.append_assoc]
      rw [hB3, ← hlen3]
      exact ih (pre ++ beBytes hw p.1 ++ beBytes vw p.2) suf
        (fun q hq => hb q (by simp [hq]))
    show parseIOList B vw codecID pre.length (l.length + 1) = _
    rw [parseIOList, h1]
    dsimp only
    rw [h2]
    dsimp only
    rw [h3]
    dsimp only
    simp only [Option.some.injEq, Prod.mk.injEq]
    constructor
    · simp [decGroup, ioStored]
    · simp [encItems, encItem, beBytes_length]
      omega

theorem parseIOElements_enc (codecID vw : Nat) (l : List (Nat × Nat)) (pre suf : List Nat)
    (hok : groupOK (headerWidth codecID) vw l) :
    parseIOElements (pre ++ (encGroup (headerWidth codecID) vw l ++ suf))
        pre.length vw codecID
      = some (decGroup vw l,
          pre.length + (encGroup (headerWidth codecID) vw l).length) := by
  obtain ⟨hcount, hb⟩ := hok
  have hB1 : pre ++ (encGroup (headerWidth codecID) vw l ++ suf)
      = pre ++ (beBytes (headerWidth codecID) l.length ++
          (encItems (headerWidth codecID) vw l ++ suf)) := by
    simp [encGroup, List.append_assoc]
  have hlen1 : (pre ++ beBytes (headerWidth codecID) l.length).length
      = pre.length + headerWidth codecID := by
    simp [beBytes_length]
  rw [hB1, parseIOElements, readHeaderField_enc pre _ codecID l.length hcount]
  dsimp only
  have hB2 : pre ++ (beBytes (headerWidth codecID) l.length ++
        (encItems (headerWidth codecID) vw l ++ suf))
      = (pre ++ beBytes (headerWidth codecID) l.length) ++
          (encItems (headerWidth codecID) vw l ++ suf) := by
    simp [List.append_assoc]
  rw [hB2, ← hlen1,
    parseIOList_enc codecID vw l (pre ++ beBytes (headerWidth codecID) l.length) suf hb]
  simp only [Option.some.injEq, Prod.mk.injEq, true_and]
  simp only [hlen1, encGroup, List.length_append, beBytes_length]
  omega

theorem parseIOElement_enc (codecID : Nat) (s : IOSec) (pre suf : List Nat)
    (hok : secOK (headerWidth codecID) s) :
    parseIOElement (pre ++ (encodeIOSec (headerWidth codecID) s ++ suf))
        pre.length codecID
      = some (decodeIOSecVals s, s.eventId,
          pre.length + (encodeIOSec (headerWidth codecID) s).length) := by
  obtain ⟨hev, htot, h1, h2, h4, h8⟩ := hok
  set hw := headerWidth codecID with hhw
  set e1 := beBytes hw s.eventId with he1
  set e2 := beBytes hw s.total with he2
  set G1 := encGroup hw 1 s.g1 with hG1
  set G2 := encGroup hw 2 s.g2 with hG2
  set G4 := encGroup hw 4 s.g4 with hG4
  set G8 := encGroup hw 8 s.g8 with hG8
  have hB : pre ++ (encodeIOSec hw s ++ suf)
      = pre ++ (e1 ++ (e2 ++ (G1 ++ (G2 ++ (G4 ++ (G8 ++ suf)))))) := by
    simp [encodeIOSec, List.append_assoc, he1, he2, hG1, hG2, hG4, hG8]
  rw [hB, parseIOElement]
  rw [readHeaderField_enc pre _ codecID s.eventId hev]
  dsimp only
  have hA1 : pre ++ (e1 ++ (e2 ++ (G1 ++ (G2 ++ (G4 ++ (G8 ++ suf))))))
      = (pre ++ e1) ++ (e2 ++ (G1 ++ (G2 ++ (G4 ++ (G8 ++ suf))))) := by
    simp [List.append_assoc]
  have hL1 : (pre ++ e1).length = pre.length + hw := by
    simp [he1, beBytes_length]
  rw [hA1, ← hL1, readHeaderField_enc (pre ++ e1) _ codecID s.total htot]
  dsimp only
  have hA2 : (pre ++ e1) ++ (e2 ++ (G1 ++ (G2 ++ (G4 ++ (G8 ++ suf)))))
      = (pre ++ e1 ++ e2) ++ (G1 ++ (G2 ++ (G4 ++ (G8 ++ suf)))) := by
    simp [List.append_assoc]
  have hL2 : (pre ++ e1 ++ e2).length = (pre ++ e1).length + hw := by
    simp [he2, beBytes_length]
    omega
  rw [hA2, ← hL2, parseIOElements_enc codecID 1 s.g1 (pre ++ e1 ++ e2) _ h1]
  dsimp only
  have hA3 : (pre ++ e1 ++ e2) ++ (G1 ++ (G2 ++ (G4 ++ (G8 ++ suf))))
      = (pre ++ e1 ++ e2 ++ G1) ++ (G2 ++ (G4 ++ (G8 ++ suf))) := by
    simp [List.append_assoc]
  have hL3 : (pre ++ e1 ++ e2 ++ G1).length = (pre ++ e1 ++ e2).length + G1.length := by
    simp
    omega
  rw [hA3, ← hG1, ← hL3, parseIOElements_enc codecID 2 s.g2 (pre ++ e1 ++ e2 ++ G1) _ h2]
  dsimp only
  have hA4 : (pre ++ e1 ++ e2 ++ G1) ++ (G2 ++ (G4 ++ (G8 ++ suf)))
      = (pre ++ e1 ++ e2 ++ G1 ++ G2) ++ (G4 ++ (G8 ++ suf)) := by
    simp [List.append_assoc]
  have hL4 : (pre ++ e1 ++ e2 ++ G1 ++ G2).length
      = (pre ++ e1 ++ e2 ++ G1).length + G2.length := by
    simp
    omega
  rw [hA4, ← hG2, ← hL4, parseIOElements_enc codecID 4 s.g4 (pre ++ e1 ++ e2 ++ G1 ++ G2) _ h4]
  dsimp only
  have hA5 : (pre ++ e1 ++ e2 ++ G1 ++ G2) ++ (G4 ++ (G8 ++ suf))
      = (pre ++ e1 ++ e2 ++ G1 ++ G2 ++ G4) ++ (G8 ++ suf) := by
    simp [List.append_assoc]
  have hL5 : (pre ++ e1 ++ e2 ++ G1 ++ G2 ++ G4).length
      = (pre ++ e1 ++ e2 ++ G1 ++ G2).length + G4.length := by
    simp
    omega
  rw [hA5, ← hG4, ← hL5,
    parseIOElements_enc codecID 8 s.g8 (pre ++ e1 ++ e2 ++ G1 ++ G2 ++ G4) _ h8]
  dsimp only
  simp only [Option.some.injEq, Prod.mk.injEq]
  refine ⟨by simp [decodeIOSecVals], trivial, ?_⟩
  simp only [← hG8, List.length_append, hL5, hL4, hL3, hL2, hL1]
  simp only [he1, he2, hG1, hG2, hG4, hG8, encodeIOSec, encGroup, List.length_append,
    beBytes_length]
  omega

theorem parseGPSElement_enc (pre suf : List Nat) (lon lat alt ang sats spd : Nat)
    (hlon : lon < 256 ^ 4) (hlat : lat < 256 ^ 4) (halt : alt < 256 ^ 2)
    (hang : ang < 256 ^ 2) (hsats : sats < 256) (hspd : spd < 256 ^ 2) :
    parseGPSElement (pre ++ (encodeGPS lon lat alt ang sats spd ++ suf)) pre.length
      = some (⟨toSigned lon 32, toSigned lat 32, toSigned alt 16, ang, sats, spd⟩,
          pre.length + 15) := by
  set c1 := beBytes 4 lon with hc1
  set c2 := beBytes 4 lat with hc2
  set c3 := beBytes 2 alt with hc3
  set c4 := beBytes 2 ang with hc4
  set c5 := beBytes 1 sats with hc5
  set c6 := beBytes 2 spd with hc6
  set B := pre ++ (encodeGPS lon lat alt ang sats spd ++ suf) with hB
  have hB0 : B = pre ++ (c1 ++ (c2 ++ (c3 ++ (c4 ++ (c5 ++ (c6 ++ suf)))))) := by
    simp [hB, encodeGPS, List.append_assoc, hc1, hc2, hc3, hc4, hc5, hc6]
  have hL1 : (pre ++ c1).length = pre.length + 4 := by simp [hc1, beBytes_length]
  have hL2 : (pre ++ c1 ++ c2).length = pre.length + 8 := by
    simp [hc1, hc2, beBytes_length]
  have hL3 : (pre ++ c1 ++ c2 ++ c3).length = pre.length + 10 := by
    simp [hc1, hc2, hc3, beBytes_length]
  have hL4 : (pre ++ c1 ++ c2 ++ c3 ++ c4).length = pre.length + 12 := by
    simp [hc1, hc2, hc3, hc4, beBytes_length]
  have hL5 : (pre ++ c1 ++ c2 ++ c3 ++ c4 ++ c5).length = pre.length + 13 := by
    simp [hc1, hc2, hc3, hc4, hc5, beBytes_length]
  have h1 : readBytesBE B pre.length 4 = some lon := by
    rw [hB0]; exact readBytesBE_enc pre _ 4 lon hlon
  have h2 : readBytesBE B (pre.length + 4) 4 = some lat := by
    have : B = (pre ++ c1) ++ (c2 ++ (c3 ++ (c4 ++ (c5 ++ (c6 ++ suf))))) := by
      simp [hB0, List.append_assoc]
    rw [this, ← hL1]; exact readBytesBE_enc _ _ 4 lat hlat
  have h3 : readBytesBE B (pre.length + 8) 2 = some alt := by
    have : B = (pre ++ c1 ++ c2) ++ (c3 ++ (c4 ++ (c5 ++ (c6 ++ suf)))) := by
      simp [hB0, List.append_assoc]
    rw [this, ← hL2]; exact readBytesBE_enc _ _ 2 alt halt
  have h4 : readBytesBE B (pre.length + 10) 2 = some ang := by
    have : B = (pre ++ c1 ++ c2 ++ c3) ++ (c4 ++ (c5 ++ (c6 ++ suf))) := by
      simp [hB0, List.append_assoc]
    rw [this, ← hL3]; exact readBytesBE_enc _ _ 2 ang hang
  have h5 : readBytesBE B (pre.length + 12) 1 = some sats := by
    have : B = (pre ++ c1 ++ c2 ++ c3 ++ c4) ++ (c5 ++ (c6 ++ suf)) := by
      simp [hB0, List.append_assoc]
    rw [this, ← hL4]
    exact readBytesBE_enc _ _ 1 sats (by simpa using hsats)
  have h6 : readBytesBE B (pre.length + 13) 2 = some spd := by
    have : B = (pre ++ c1 ++ c2 ++ c3 ++ c4 ++ c5) ++ (c6 ++ suf) := by
      simp [hB0, List.append_assoc]
    rw [this, ← hL5]; exact readBytesBE_enc _ _ 2 spd hspd
  rw [parseGPSElement, readInt32BE, readInt32BE, readInt16BE, h1, h2, h3, h4, h5, h6]
  rfl

theorem parseAVLRecord_enc (codecID ts prio lon lat alt ang sats spd : Nat) (sec : IOSec)
    (pre suf : List Nat)
    (hts : ts ≤ maxDateMillis) (hprio : prio < 256)
    (hlon : lon < 256 ^ 4) (hlat : lat < 256 ^ 4) (halt : alt < 256 ^ 2)
    (hang : ang < 256 ^ 2) (hsats : sats < 256) (hspd : spd < 256 ^ 2)
    (hsec : secOK (headerWidth codecID) sec) :
    parseAVLRecord
        (pre ++ (encodeAVLRecord (headerWidth codecID) ts prio lon lat alt ang sats spd sec ++ suf))
        pre.length codecID
      = some ({ recorded_at := ts, priority := prio,
                longitude := toSigned lon 32, latitude := toSigned lat 32,
                altitude := toSigned alt 16, angle := ang, satellites := sats,
                speed := spd, io_elements := decodeIOSecVals sec,
                event_id := sec.eventId },
          pre.length +
            (encodeAVLRecord (headerWidth codecID) ts prio lon lat alt ang sats spd sec).length) := by
  have hts53 : ts < 2 ^ 53 := lt_of_le_of_lt hts (by norm_num [maxDateMillis])
  have hts64 : ts < 256 ^ 8 := lt_of_le_of_lt hts (by norm_num [maxDateMillis])
  set t := beBytes 8 ts with ht
  set pr := beBytes 1 prio with hpr
  set G := encodeGPS lon lat alt ang sats spd with hG
  set S := encodeIOSec (headerWidth codecID) sec with hS
  set B := pre ++ (encodeAVLRecord (headerWidth codecID) ts prio lon lat alt ang sats spd sec ++ suf) with hB
  have hB0 : B = pre ++ (t ++ (pr ++ (G ++ (S ++ suf)))) := by
    simp [hB, encodeAVLRecord, List.append_assoc, ht, hpr, hG, hS]
  have hL1 : (pre ++ t).length = pre.length + 8 := by simp [ht, beBytes_length]
  have hL2 : (pre ++ t ++ pr).length = pre.length + 9 := by
    simp [ht, hpr, beBytes_length]
  have hL3 : (pre ++ t ++ pr ++ G).length = pre.length + 24 := by
    simp [ht, hpr, hG, encodeGPS, beBytes_length]
  have h1 : readBytesBE B pre.length 8 = some ts := by
    rw [hB0]; exact readBytesBE_enc pre _ 8 ts hts64
  have h2 : readBytesBE B (pre.length + 8) 1 = some prio := by
    have hd : B = (pre ++ t) ++ (pr ++ (G ++ (S ++ suf))) := by
      simp [hB0, List.append_assoc]
    rw [hd, ← hL1]
    exact readBytesBE_enc _ _ 1 prio (by simpa using hprio)
  have h3 : parseGPSElement B (pre.length + 9)
      = some (⟨toSigned lon 32, toSigned lat 32, toSigned alt 16, ang, sats, spd⟩,
          pre.length + 9 + 15) := by
    have hd : B = (pre ++ t ++ pr) ++ (G ++ (S ++ suf)) := by
      simp [hB0, List.append_assoc]
    rw [hd, ← hL2]
    exact parseGPSElement_enc (pre ++ t ++ pr) (S ++ suf) lon lat alt ang sats spd
      hlon hlat halt hang hsats hspd
  have h4 : parseIOElement B (pre.length + 24) codecID
      = some (decodeIOSecVals sec, sec.eventId, pre.length + 24 + S.length) := by
    have hd : B = (pre ++ t ++ pr ++ G) ++ (S ++ suf) := by
      simp [hB0, List.append_assoc]
    rw [hd, ← hL3]
    have := parseIOElement_enc codecID sec (pre ++ t ++ pr ++ G) suf hsec
    simpa [hS] using this
  have h24 : pre.length + 9 + 15 = pre.length + 24 := by omega
  rw [parseAVLRecord, h1]
  dsimp only
  rw [jsNumberOfU64_of_lt ts hts53, if_pos hts, h2]
  dsimp only
  rw [h3]
  dsimp only
  rw [h24, h4]
  dsimp only
  simp only [Option.some.injEq, Prod.mk.injEq, true_and]
  simp only [hS, encodeAVLRecord, ht, hpr, hG, List.length_append, beBytes_length,
    encodeGPS]
  omega

theorem groupOK_two_of_one (vw : Nat) (l : List (Nat × Nat))
    (h : groupOK 1 vw l) : groupOK 2 vw l := by
  obtain ⟨hl, hb⟩ := h
  refine ⟨lt_of_lt_of_le hl (by norm_num), fun p hp => ?_⟩
  obtain ⟨h1, h2⟩ := hb p hp
  exact ⟨lt_of_lt_of_le h1 (by norm_num), h2⟩

theorem secOK_two_of_one (s : IOSec) (h : secOK 1 s) : secOK 2 s := by
  obtain ⟨hev, htot, h1, h2, h4, h8⟩ := h
  exact ⟨lt_of_lt_of_le hev (by norm_num), lt_of_lt_of_le htot (by norm_num),
    groupOK_two_of_one 1 s.g1 h1, groupOK_two_of_one 2 s.g2 h2,
    groupOK_two_of_one 4 s.g4 h4, groupOK_two_of_one 8 s.g8 h8⟩

/-! ## Claim theorems -/

/-- C5: for every packet whose codec-id byte (offset 8) is neither `0x08`
nor `0x8E`, `parseAVLData` fails and returns Invalid (`none`), regardless
of whether the rest of the packet structure is otherwise valid. -/
theorem c5_unsupported_codec_fails (b : List Nat) (c : Nat) (hlen : 9 ≤ b.length)
    (hc : readBytesBE b 8 1 = some c) (h8 : c ≠ 8) (h8E : c ≠ 142) :
    parseAVLData b = none :=
  parseAVLData_badCodec b c hlen hc h8 h8E

/-- C5 witness: a structurally complete packet with codec id `0x07` is
rejected. -/
theorem c5_unsupported_codec_fails_witness :
    parseAVLData [0, 0, 0, 0, 0, 0, 0, 0, 7, 0] = none :=
  c5_unsupported_codec_fails [0, 0, 0, 0, 0, 0, 0, 0, 7, 0] 7
    (by decide) (by decide) (by decide) (by decide)

/-- C9: `parseIMEI` is total by construction (every JavaScript read that
could throw is modelled as `Option`, and the function's `try`/`catch`
returns `null` on any throw), and whenever it succeeds the result is a
string of exactly 15 decimal digit code units — never a partially
validated identity. -/
theorem c9_identity_decode_safe_shape (b imei : List Nat)
    (h : parseIMEI b = some imei) :
    imei.length = 15 ∧ imei.all isDigitCode :=
  parseIMEI_spec b imei h

/-- C9 witness: a concrete successful decode yields 15 digit code units. -/
theorem c9_identity_decode_safe_shape_witness :
    ([49, 50, 51, 52, 53, 54, 55, 56, 57, 48, 49, 50, 51, 52, 53] : List Nat).length = 15 ∧
      ([49, 50, 51, 52, 53, 54, 55, 56, 57, 48, 49, 50, 51, 52, 53] : List Nat).all isDigitCode :=
  c9_identity_decode_safe_shape
    [0, 15, 49, 50, 51, 52, 53, 54, 55, 56, 57, 48, 49, 50, 51, 52, 53]
    [49, 50, 51, 52, 53, 54, 55, 56, 57, 48, 49, 50, 51, 52, 53] (by decide)

/-- C1 counterexample: in the packet `[4B preamble][len][codec 8][count 1]`
with no record bytes at all, the single record fails to decode
(`parseAVLRecord` returns `null`), yet `parseAVLData` does not fail: it
returns a packet with `numberOfRecords = 1` and an empty `records` list —
a partial result with a count/records mismatch, not Invalid. -/
theorem c1_counterexample_partial_packet :
    parseAVLRecord [0, 0, 0, 0, 0, 0, 0, 0, 8, 1] 10 8 = none ∧
      parseAVLData [0, 0, 0, 0, 0, 0, 0, 0, 8, 1]
        = some { codecID := 8, numberOfRecords := 1, records := [] } := by
  constructor
  · rfl
  · rfl

/-- C1 amended: when a record fails to decode, `parseAVLData` does not
fail the whole packet; the failed record is silently skipped (the loop
index advances, the cursor stays) and the packet is still returned.  In
every successful decode the output `numberOfRecords` equals the declared
count byte, while `records` holds only the records that decoded, so
`records.length ≤ numberOfRecords` and a mismatch is returned rather than
treated as failure. -/
theorem c1_amended_declared_count (b : List Nat) (p : AVLPacket)
    (h : parseAVLData b = some p) :
    readBytesBE b 9 1 = some p.numberOfRecords ∧
      p.records.length ≤ p.numberOfRecords := by
  obtain ⟨h1, -, -⟩ := parseAVLData_inv b p h
  exact ⟨h1, parseAVLData_records_le b p h⟩

/-- C1 witness: the amended statement at the counterexample's packet. -/
theorem c1_amended_declared_count_witness :
    readBytesBE [0, 0, 0, 0, 0, 0, 0, 0, 8, 1] 9 1
        = some (AVLPacket.mk 8 1 []).numberOfRecords ∧
      (AVLPacket.mk 8 1 []).records.length ≤ (AVLPacket.mk 8 1 []).numberOfRecords :=
  c1_amended_declared_count [0, 0, 0, 0, 0, 0, 0, 0, 8, 1]
    (AVLPacket.mk 8 1 []) (by rfl)

/-- C10: `parseAVLData` terminates on every input by construction: the
record loop `parseLoop` is structural recursion on the declared count,
which is read as one unsigned byte and so is at most 255 for any byte
buffer.  When an individual record fails to decode the cursor passed to
the next iteration is unchanged while the loop index still advances, so
the loop runs exactly the declared number of iterations on any input. -/
theorem c10_record_loop_bounded :
    (∀ (b : List Nat) (p : AVLPacket), (∀ x ∈ b, x < 256) →
        parseAVLData b = some p →
        p.numberOfRecords ≤ 255 ∧ p.records.length ≤ p.numberOfRecords) ∧
      (∀ (b : List Nat) (codecID off n : Nat) (acc : List AVLRecord),
        parseAVLRecord b off codecID = none →
        parseLoop b codecID off (n + 1) acc = parseLoop b codecID off n acc) := by
  constructor
  · intro b p hb h
    obtain ⟨h9, -, -⟩ := parseAVLData_inv b p h
    have hlt := readBytesBE_lt b 9 1 p.numberOfRecords hb h9
    refine ⟨?_, parseAVLData_records_le b p h⟩
    simpa using Nat.lt_succ_iff.mp (by simpa using hlt)
  · intro b codecID off n acc h
    exact parseLoop_skip b codecID off n acc h

/-- C10 witness: the count bound on a concrete packet and the
cursor-unchanged step on a concrete failing record. -/
theorem c10_record_loop_bounded_witness :
    ((AVLPacket.mk 8 1 []).numberOfRecords ≤ 255 ∧
        (AVLPacket.mk 8 1 []).records.length ≤ (AVLPacket.mk 8 1 []).numberOfRecords) ∧
      parseLoop [0, 0, 0, 0, 0, 0, 0, 0, 8, 1] 8 10 (3 + 1) []
        = parseLoop [0, 0, 0, 0, 0, 0, 0, 0, 8, 1] 8 10 3 [] :=
  ⟨c10_record_loop_bounded.1 [0, 0, 0, 0, 0, 0, 0, 0, 8, 1] (AVLPacket.mk 8 1 [])
      (by decide) (by rfl),
    c10_record_loop_bounded.2 [0, 0, 0, 0, 0, 0, 0, 0, 8, 1] 8 10 3 [] (by rfl)⟩

/-- C2 counterexample: an 8-byte IO element whose wire value is
`2 ^ 64 - 1` is stored as `2 ^ 64` (the nearest IEEE-754 binary64 value),
not as the exact unsigned 64-bit integer: JavaScript's
`Number(buffer.readBigUInt64BE(...))` rounds above `2 ^ 53`. -/
theorem c2_counterexample_u64_rounds :
    readBytesBE [1, 1, 255, 255, 255, 255, 255, 255, 255, 255] 2 8
        = some 18446744073709551615 ∧
      parseIOElements [1, 1, 255, 255, 255, 255, 255, 255, 255, 255] 0 8 8
        = some ([(1, 18446744073709551616)], 10) := by
  constructor
  · rfl
  · rfl

/-- C2 amended: the value stored for an 8-byte IO element is JavaScript's
`Number` conversion of the wire value (round to nearest binary64, ties to
even, `jsNumberOfU64`); it equals the exact unsigned 64-bit big-endian
integer read from the wire for all values up to `2 ^ 53`, but not for all
values up to `2 ^ 64 - 1`. -/
theorem c2_amended_u64_precision (ioID raw : Nat) (hid : ioID < 256)
    (hraw : raw < 2 ^ 53) :
    parseIOElements (1 :: ioID :: beBytes 8 raw) 0 8 8
      = some ([(ioID, raw)], 10) := by
  have hraw64 : raw < 256 ^ 8 := lt_of_lt_of_le hraw (by norm_num)
  have hok : groupOK (headerWidth 8) 8 [(ioID, raw)] := by
    refine ⟨by norm_num [headerWidth], ?_⟩
    intro p hp
    simp only [List.mem_singleton] at hp
    subst hp
    exact ⟨by simpa [headerWidth] using hid, by simpa using hraw64⟩
  have := parseIOElements_enc 8 8 [(ioID, raw)] [] [] hok
  have henc : ([] : List Nat) ++ (encGroup (headerWidth 8) 8 [(ioID, raw)] ++ [])
      = 1 :: ioID :: beBytes 8 raw := by
    simp [encGroup, encItems, encItem, headerWidth, beBytes,
      Nat.mod_eq_of_lt hid]
  rw [henc] at this
  simp only [List.length_nil] at this
  rw [this]
  simp [decGroup, ioStored, jsNumberOfU64_of_lt raw hraw, encGroup, encItems,
    encItem, beBytes_length, headerWidth]

/-- C2 witness: the largest exactly-stored value, `2 ^ 53 - 1`. -/
theorem c2_amended_u64_precision_witness :
    parseIOElements (1 :: 3 :: beBytes 8 9007199254740991) 0 8 8
      = some ([(3, 9007199254740991)], 10) :=
  c2_amended_u64_precision 3 9007199254740991 (by decide) (by norm_num)

/-- C4 counterexample: the byte `0xB1` (177) is not an ASCII digit, yet a
17-byte identity frame whose payload contains it decodes successfully:
Node's `'ascii'` decoding strips the high bit, so `0xB1` reads as the
digit `'1'` and the regex accepts.  The claim's rejection half fails. -/
theorem c4_counterexample_high_bit_digit :
    isDigitCode 177 = false ∧
      parseIMEI [0, 15, 177, 49, 49, 49, 49, 49, 49, 49, 49, 49, 49, 49, 49, 49, 49]
        = some [49, 49, 49, 49, 49, 49, 49, 49, 49, 49, 49, 49, 49, 49, 49] := by
  constructor
  · rfl
  · rfl

/-- C4 amended: `parseIMEI` round-trips every 15-digit identity encoded as
`[2B 0x000F][15 ASCII digit bytes]`, and rejects every input whose 2-byte
length prefix is not 15 as well as every input whose 15-byte payload
contains a byte whose low 7 bits are not an ASCII digit.  A payload byte
that is a digit with the high bit set (for example `0xB1`) is accepted as
that digit, because Node's `'ascii'` decoding keeps only the low 7 bits. -/
theorem c4_amended_identity_roundtrip :
    (∀ digits : List Nat, digits.length = 15 → digits.all isDigitCode →
        parseIMEI (encodeIdentity digits) = some digits) ∧
      (∀ (b : List Nat) (len : Nat), readBytesBE b 0 2 = some len → len ≠ 15 →
        parseIMEI b = none) ∧
      (∀ (b : List Nat) (x : Nat), x ∈ (b.drop 2).take 15 →
        isDigitCode (x % 128) = false → parseIMEI b = none) :=
  ⟨fun digits hl hd => parseIMEI_roundTrip digits hl hd,
    fun b len hr hne => parseIMEI_badLength b len hr hne,
    fun b x hx hnd => parseIMEI_badDigit b x hx hnd⟩

/-- C4 witness: a round-trip on a concrete identity, a rejected wrong
length prefix, and a rejected non-digit payload byte (`'A'` = 65). -/
theorem c4_amended_identity_roundtrip_witness :
    parseIMEI (encodeIdentity [49, 50, 51, 52, 53, 54, 55, 56, 57, 48, 49, 50, 51, 52, 53])
        = some [49, 50, 51, 52, 53, 54, 55, 56, 57, 48, 49, 50, 51, 52, 53] ∧
      parseIMEI [0, 14, 49, 50, 51, 52, 53, 54, 55, 56, 57, 48, 49, 50, 51, 52, 53] = none ∧
      parseIMEI [0, 15, 65, 49, 49, 49, 49, 49, 49, 49, 49, 49, 49, 49, 49, 49, 49] = none :=
  ⟨c4_amended_identity_roundtrip.1 [49, 50, 51, 52, 53, 54, 55, 56, 57, 48, 49, 50, 51, 52, 53]
      (by decide) (by decide),
    c4_amended_identity_roundtrip.2.1
      [0, 14, 49, 50, 51, 52, 53, 54, 55, 56, 57, 48, 49, 50, 51, 52, 53] 14
      (by rfl) (by decide),
    c4_amended_identity_roundtrip.2.2
      [0, 15, 65, 49, 49, 49, 49, 49, 49, 49, 49, 49, 49, 49, 49, 49, 49] 65
      (by decide) (by rfl)⟩

/-- C8: a record whose IO section is built with 2-byte ids and counts and
decoded as Codec 8 Extended (`0x8E`) yields field values — timestamp,
priority, GPS fields, event id and the `(id, value)` IO pairs — identical
to decoding the same abstract content built with 1-byte widths as a
Codec 8 (`0x08`) record: both sides decode to the very same `AVLRecord`
term, the codecs differing only in the codec id and the internally
handled id/count widths. -/
theorem c8_extended_codec_equivalence
    (ts prio lon lat alt ang sats spd : Nat) (sec : IOSec)
    (hts : ts ≤ maxDateMillis) (hprio : prio < 256)
    (hlon : lon < 256 ^ 4) (hlat : lat < 256 ^ 4) (halt : alt < 256 ^ 2)
    (hang : ang < 256 ^ 2) (hsats : sats < 256) (hspd : spd < 256 ^ 2)
    (hsec : secOK 1 sec) :
    parseAVLRecord (encodeAVLRecord 2 ts prio lon lat alt ang sats spd sec) 0 142
        = some ({ recorded_at := ts, priority := prio,
                  longitude := toSigned lon 32, latitude := toSigned lat 32,
                  altitude := toSigned alt 16, angle := ang, satellites := sats,
                  speed := spd, io_elements := decodeIOSecVals sec,
                  event_id := sec.eventId },
            (encodeAVLRecord 2 ts prio lon lat alt ang sats spd sec).length) ∧
      parseAVLRecord (encodeAVLRecord 1 ts prio lon lat alt ang sats spd sec) 0 8
        = some ({ recorded_at := ts, priority := prio,
                  longitude := toSigned lon 32, latitude := toSigned lat 32,
                  altitude := toSigned alt 16, angle := ang, satellites := sats,
                  speed := spd, io_elements := decodeIOSecVals sec,
                  event_id := sec.eventId },
            (encodeAVLRecord 1 ts prio lon lat alt ang sats spd sec).length) := by
  constructor
  · have h142 : headerWidth 142 = 2 := rfl
    have := parseAVLRecord_enc 142 ts prio lon lat alt ang sats spd sec [] []
      hts hprio hlon hlat halt hang hsats hspd
      (by rw [h142]; exact secOK_two_of_one sec hsec)
    rw [h142] at this
    simpa using this
  · have h8 : headerWidth 8 = 1 := rfl
    have := parseAVLRecord_enc 8 ts prio lon lat alt ang sats spd sec [] []
      hts hprio hlon hlat halt hang hsats hspd (by rw [h8]; exact hsec)
    rw [h8] at this
    simpa using this

/-- C6: in the `AwaitingIdentity` phase (`deviceIMEI` still `none`), one
`data` event satisfies the spec's transition rule: with fewer than 17
accumulated bytes nothing is written, the socket stays open and the phase
is unchanged (the chunk is only accumulated); with at least 17 bytes and
an invalid identity exactly one `0x00` byte is written and the socket is
closed; with a valid identity that the resolver maps to a route, exactly
one `0x01` byte is written, the identity and route are stored, the buffer
is cleared and the session is `Authenticated` (`deviceIMEI` set). -/
theorem c6_awaiting_identity_transition
    (resolver : List Nat → Option ClientConfig)
    (sink : ClientConfig → List AVLRecord → Bool)
    (s : SessionState) (chunk : List Nat) (hphase : s.deviceIMEI = none) :
    ((s.dataBuffer ++ chunk).length < 17 →
        onData resolver sink s chunk
          = { state := { s with dataBuffer := s.dataBuffer ++ chunk },
              writes := [], ended := false }) ∧
      (17 ≤ (s.dataBuffer ++ chunk).length →
        parseIMEI (s.dataBuffer ++ chunk) = none →
        onData resolver sink s chunk
          = { state := { s with dataBuffer := s.dataBuffer ++ chunk },
              writes := [[0]], ended := true }) ∧
      (∀ imei cfg, parseIMEI (s.dataBuffer ++ chunk) = some imei →
        resolver imei = some cfg →
        onData resolver sink s chunk
          = { state := { deviceIMEI := some imei, clientConfig := some cfg,
                         dataBuffer := [] },
              writes := [[1]], ended := false }) := by
  refine ⟨fun hlt => ?_, fun hge hbad => ?_, fun imei cfg himei hcfg => ?_⟩
  · simp only [onData, hphase]
    rw [if_pos hlt]
  · simp only [onData, hphase]
    rw [if_neg (Nat.not_lt.mpr hge), hbad]
  · have hge := parseIMEI_length_ge _ imei himei
    simp only [onData, hphase]
    rw [if_neg (Nat.not_lt.mpr hge), himei]
    dsimp only
    rw [hcfg]

/-- C7: after a first successful resolution at time `t0` (from an empty
router state), every lookup strictly within the 5-minute window returns
the cached route with no registry access and leaves the state unchanged
(so expiry is independent of access patterns), and at any time strictly
past `t0 + 5 minutes` the entry has been removed by its scheduled timer
and a lookup consults the registry afresh, whatever that registry now
answers. -/
theorem c7_cache_expiry_five_minutes
    (registry : List Nat → Option RegistryRow) (imei : List Nat)
    (row : RegistryRow) (url key : String) (t0 : Nat)
    (hreg : registry imei = some row)
    (hurl : row.supabase_url_destino = some url) (hu : url ≠ "")
    (hkey : row.supabase_service_key_destino = some key) (hk : key ≠ "") :
    validateDevice registry { cache := [], timers := [] } t0 imei
        = (some (routeOf row url key), cachedState imei (routeOf row url key) t0, true) ∧
      (∀ t, t < t0 + 5 * 60 * 1000 →
        validateDevice registry (cachedState imei (routeOf row url key) t0) t imei
          = (some (routeOf row url key), cachedState imei (routeOf row url key) t0, false)) ∧
      (∀ (t : Nat) (registry' : List Nat → Option RegistryRow),
        t0 + 5 * 60 * 1000 < t →
        (fireTimers (cachedState imei (routeOf row url key) t0) t).cache = [] ∧
          (validateDevice registry' (cachedState imei (routeOf row url key) t0) t imei).2.2
            = true) := by
  refine ⟨?_, fun t ht => ?_, fun t registry' ht => ?_⟩
  · have hne : ¬ (url = "" ∨ key = "") := by
      intro hc
      rcases hc with h | h
      · exact hu h
      · exact hk h
    simp only [validateDevice, fireTimers, List.filter_nil, List.foldl_nil]
    simp only [cacheLookup, List.find?_nil]
    rw [hreg]
    dsimp only
    rw [hurl, hkey]
    dsimp only
    rw [if_neg hne]
    simp [cacheSet, routeOf, cachedState]
  · have hc : decide (t0 + 5 * 60 * 1000 ≤ t) = false :=
      decide_eq_false (Nat.not_le.mpr ht)
    have hft : fireTimers (cachedState imei (routeOf row url key) t0) t
        = cachedState imei (routeOf row url key) t0 := by
      simp [fireTimers, cachedState, hc]
      omega
    simp only [validateDevice, hft]
    have hfind : cacheLookup (cachedState imei (routeOf row url key) t0).cache imei
        = some (routeOf row url key) := by
      simp [cacheLookup, cachedState]
    rw [hfind]
  · have hc : decide (t0 + 5 * 60 * 1000 ≤ t) = true :=
      decide_eq_true (le_of_lt ht)
    have hft : fireTimers (cachedState imei (routeOf row url key) t0) t
        = { cache := [], timers := [] } := by
      simp [fireTimers, cachedState, hc]
      omega
    refine ⟨by rw [hft], ?_⟩
    simp only [validateDevice, hft]
    have hnone : cacheLookup ([] : List (List Nat × ClientConfig)) imei = none := by
      simp [cacheLookup]
    rw [hnone]
    dsimp only
    cases hr : registry' imei with
    | none => rfl
    | some row' =>
      dsimp only
      cases hu' : row'.supabase_url_destino with
      | none =>
        cases hk' : row'.supabase_service_key_destino with
        | none => rfl
        | some k' => rfl
      | some u' =>
        cases hk' : row'.supabase_service_key_destino with
        | none => rfl
        | some k' =>
          dsimp only
          by_cases hek : u' = "" ∨ k' = ""
          · rw [if_pos hek]
          · rw [if_neg hek]

/-- C6 witness: the three transitions at concrete inputs — a 2-byte
fragment (no reply), a 17-byte frame with payload byte `'A'` (one `0x00`
and close), and the valid registered identity (one `0x01`,
authenticated, buffer cleared). -/
theorem c6_awaiting_identity_transition_witness :
    onData resolverW sinkW sessionW [0, 15]
        = { state := { deviceIMEI := none, clientConfig := none, dataBuffer := [0, 15] },
            writes := [], ended := false } ∧
      onData resolverW sinkW sessionW
          [0, 15, 65, 49, 49, 49, 49, 49, 49, 49, 49, 49, 49, 49, 49, 49, 49]
        = { state := { deviceIMEI := none, clientConfig := none,
                       dataBuffer := [0, 15, 65, 49, 49, 49, 49, 49, 49, 49, 49, 49, 49, 49, 49, 49, 49] },
            writes := [[0]], ended := true } ∧
      onData resolverW sinkW sessionW ([0, 15] ++ imeiW)
        = { state := { deviceIMEI := some imeiW, clientConfig := some cfgW,
                       dataBuffer := [] },
            writes := [[1]], ended := false } :=
  ⟨(c6_awaiting_identity_transition resolverW sinkW sessionW [0, 15] rfl).1 (by decide),
    (c6_awaiting_identity_transition resolverW sinkW sessionW
        [0, 15, 65, 49, 49, 49, 49, 49, 49, 49, 49, 49, 49, 49, 49, 49, 49] rfl).2.1
      (by decide) (by decide),
    (c6_awaiting_identity_transition resolverW sinkW sessionW ([0, 15] ++ imeiW) rfl).2.2
      imeiW cfgW (by decide) (by decide)⟩

/-- C7 witness: first resolution at `t0 = 1000`, a cache hit at `t = 1500`
with no registry access, and at `t = 302000` the entry gone and the
registry consulted again. -/
theorem c7_cache_expiry_five_minutes_witness :
    validateDevice registryW { cache := [], timers := [] } 1000 imeiW
        = (some (routeOf rowW "https://tenant.example" "service-key"),
            cachedState imeiW (routeOf rowW "https://tenant.example" "service-key") 1000,
            true) ∧
      validateDevice registryW
          (cachedState imeiW (routeOf rowW "https://tenant.example" "service-key") 1000)
          1500 imeiW
        = (some (routeOf rowW "https://tenant.example" "service-key"),
            cachedState imeiW (routeOf rowW "https://tenant.example" "service-key") 1000,
            false) ∧
      ((fireTimers
            (cachedState imeiW (routeOf rowW "https://tenant.example" "service-key") 1000)
            302000).cache = [] ∧
        (validateDevice registryW
            (cachedState imeiW (routeOf rowW "https://tenant.example" "service-key") 1000)
            302000 imeiW).2.2 = true) :=
  ⟨(c7_cache_expiry_five_minutes registryW imeiW rowW "https://tenant.example"
        "service-key" 1000 (by decide) rfl (by decide) rfl (by decide)).1,
    (c7_cache_expiry_five_minutes registryW imeiW rowW "https://tenant.example"
        "service-key" 1000 (by decide) rfl (by decide) rfl (by decide)).2.1
      1500 (by decide),
    (c7_cache_expiry_five_minutes registryW imeiW rowW "https://tenant.example"
        "service-key" 1000 (by decide) rfl (by decide) rfl (by decide)).2.2
      302000 registryW (by decide)⟩

/-- C8 witness: a concrete record content decoded identically through
both codecs. -/
theorem c8_extended_codec_equivalence_witness :
    parseAVLRecord (encodeAVLRecord 2 1700000000000 0 1234567 7654321 2240 180 12 60 secW)
        0 142
      = some ({ recorded_at := 1700000000000, priority := 0,
                longitude := toSigned 1234567 32, latitude := toSigned 7654321 32,
                altitude := toSigned 2240 16, angle := 180, satellites := 12,
                speed := 60, io_elements := decodeIOSecVals secW,
                event_id := secW.eventId },
          (encodeAVLRecord 2 1700000000000 0 1234567 7654321 2240 180 12 60 secW).length) ∧
    parseAVLRecord (encodeAVLRecord 1 1700000000000 0 1234567 7654321 2240 180 12 60 secW)
        0 8
      = some ({ recorded_at := 1700000000000, priority := 0,
                longitude := toSigned 1234567 32, latitude := toSigned 7654321 32,
                altitude := toSigned 2240 16, angle := 180, satellites := 12,
                speed := 60, io_elements := decodeIOSecVals secW,
                event_id := secW.eventId },
          (encodeAVLRecord 1 1700000000000 0 1234567 7654321 2240 180 12 60 secW).length) :=
  c8_extended_codec_equivalence 1700000000000 0 1234567 7654321 2240 180 12 60 secW
    (by decide) (by decide) (by decide) (by decide) (by decide) (by decide)
    (by decide) (by decide) (by unfold secOK groupOK; decide)

end Zamex
